import Mathlib

/-!
Verification of the D-Day backend service (TMDb-backed release countdown).

The definitions below are a shallow embedding of the repository's Python
source.  Calendar dates are modelled as integers (a day number), so the
`datetime.date` ordering and whole-day subtraction become integer ordering
and subtraction.  Each definition's doc comment names the source function
it embeds.
-/

set_option autoImplicit false

namespace LifeStyle

/-- Calendar dates are day numbers; `d1 - d2` is the whole-day difference. -/
abbrev Day := Int

/-- Raw textual date field of a TMDb payload, as seen by
`TMDbClient._parse_date`: missing/empty (`absent`), unparsable
(`malformed`), or a well-formed ISO date carrying day number `d`. -/
inductive RawDate where
  | absent
  | malformed
  | iso (d : Day)
deriving DecidableEq

/-- Embeds `TMDbClient._parse_date` (app/services/tmdb.py): empty or
missing strings and `ValueError` both yield `None`. -/
def parse_date : RawDate → Option Day
  | .absent => none
  | .malformed => none
  | .iso d => some d

/-- One entry of a regional `release_dates` list: the raw date plus the
TMDb release-type code (`5` denotes a re-release). -/
structure ReleaseDateInfo where
  release_date : RawDate
  release_type : Int
deriving DecidableEq

/-- One element of the `release_dates.results` payload: a region code and
its release entries. -/
structure RegionalRelease where
  iso_3166_1 : String
  release_dates : List ReleaseDateInfo
deriving DecidableEq

/-- Embeds the `TMDbReleaseInfo` dataclass (app/services/tmdb.py). -/
structure TMDbReleaseInfo where
  date : Day
  is_re_release : Bool
deriving DecidableEq

/-- Embeds `info.get("type") == 5` from `TMDbClient._select_release`. -/
def is_re (info : ReleaseDateInfo) : Bool := info.release_type == 5

/-- Embeds `is_preferred = not region_code or entry.get("iso_3166_1") ==
region_code`; the absent region is modelled as `""`. -/
def is_preferred (region_code : String) (entry : RegionalRelease) : Bool :=
  region_code == "" || entry.iso_3166_1 == region_code

/-- Embeds `region_code = region or self.default_region`. -/
def effective_region (region default_region : String) : String :=
  if region == "" then default_region else region

/-- One of the four bucket lists built by the loop in
`TMDbClient._select_release`: entries whose preferred-region flag equals
`preferred` and whose re-release flag equals `want_re`, keeping only
parsable dates on or after `today`, in traversal order. -/
def release_bucket (region_code : String) (preferred want_re : Bool)
    (today : Day) (results : List RegionalRelease) : List TMDbReleaseInfo :=
  results.flatMap fun entry =>
    if is_preferred region_code entry = preferred then
      entry.release_dates.filterMap fun info =>
        match parse_date info.release_date with
        | none => none
        | some parsed =>
          if is_re info = want_re ∧ today ≤ parsed then
            some ⟨parsed, is_re info⟩
          else none
    else []

/-- Fold step of `collection.sort(key=...); collection[0]`: running
minimum keeping the earlier element on ties (Python sorts are stable). -/
def foldlMin {α : Type} (key : α → Int) (a : α) (xs : List α) : α :=
  xs.foldl (fun acc r => if key r < key acc then r else acc) a

/-- First element with minimal key, or `none` on the empty list. -/
def firstMinBy {α : Type} (key : α → Int) : List α → Option α
  | [] => none
  | x :: xs => some (foldlMin key x xs)

/-- Fold step of `collection.sort(key=..., reverse=True); collection[0]`. -/
def foldlMax {α : Type} (key : α → Int) (a : α) (xs : List α) : α :=
  xs.foldl (fun acc r => if key acc < key r then r else acc) a

/-- First element with maximal key, or `none` on the empty list. -/
def firstMaxBy {α : Type} (key : α → Int) : List α → Option α
  | [] => none
  | x :: xs => some (foldlMax key x xs)

/-- Embeds `TMDbClient._select_release`: the four buckets are examined in
the strict order preferred-original, preferred-re-release,
fallback-original, fallback-re-release, returning the earliest date of
the first non-empty bucket, and `none` when all four are empty. -/
def select_release (results : List RegionalRelease) (region_code : String)
    (today : Day) : Option TMDbReleaseInfo :=
  match firstMinBy (fun r => r.date) (release_bucket region_code true false today results) with
  | some r => some r
  | none =>
    match firstMinBy (fun r => r.date) (release_bucket region_code true true today results) with
    | some r => some r
    | none =>
      match firstMinBy (fun r => r.date) (release_bucket region_code false false today results) with
      | some r => some r
      | none =>
        firstMinBy (fun r => r.date) (release_bucket region_code false true today results)

/-- The resolver's failure modes (the `TMDbError` exception family). -/
inductive TMDbFailure where
  | notFound
  | noUpcomingRelease
deriving DecidableEq

/-- Embeds lines 110-114 of `TMDbClient.search_movie`: a `None` result of
`_select_release` is raised as `TMDbNoUpcomingRelease`. -/
def resolve_release (results : List RegionalRelease) (region_code : String)
    (today : Day) : Except TMDbFailure TMDbReleaseInfo :=
  match select_release results region_code today with
  | none => .error .noUpcomingRelease
  | some r => .ok r

/-- One element of the search results list, as consumed by
`TMDbClient._select_candidate` (only `release_date` is inspected; `tmdb_id`
keeps candidates distinguishable). -/
structure SearchResult where
  tmdb_id : Nat
  release_date : RawDate
deriving DecidableEq

/-- The `future` list built by `TMDbClient._select_candidate`: pairs of
parsed date and candidate, for dates on or after today. -/
def candidate_future (results : List SearchResult) (today : Day) :
    List (Day × SearchResult) :=
  results.filterMap fun item =>
    match parse_date item.release_date with
    | none => none
    | some rd => if today ≤ rd then some (rd, item) else none

/-- The `fallback` list built by `TMDbClient._select_candidate`: pairs of
parsed date and candidate, for strictly past dates. -/
def candidate_fallback (results : List SearchResult) (today : Day) :
    List (Day × SearchResult) :=
  results.filterMap fun item =>
    match parse_date item.release_date with
    | none => none
    | some rd => if rd < today then some (rd, item) else none

/-- Embeds `TMDbClient._select_candidate`: earliest of the future bucket,
else latest of the past bucket, else the first search result. -/
def select_candidate (results : List SearchResult) (today : Day) :
    Option SearchResult :=
  match firstMinBy (fun p => p.1) (candidate_future results today) with
  | some p => some p.2
  | none =>
    match firstMaxBy (fun p => p.1) (candidate_fallback results today) with
    | some p => some p.2
    | none => results.head?

/-- Embeds the candidate stage of `TMDbClient.search_movie` (lines 94-100):
an empty results list raises `TMDbNotFound`, otherwise `_select_candidate`
chooses the candidate. -/
def search_stage1 (results : List SearchResult) (today : Day) :
    Except TMDbFailure SearchResult :=
  match select_candidate results today with
  | none => .error .notFound
  | some c => .ok c

/-- Embeds `calculate_dday_label` (app/services/dday.py). -/
def calculate_dday_label (release_date today : Day) : String :=
  let delta := release_date - today
  if 0 < delta then "D-" ++ toString delta
  else if delta = 0 then "D-DAY"
  else "D+" ++ toString delta.natAbs

/-- Embeds `_compute_dday` (app/main.py), the route-layer copy. -/
def compute_dday (release_date : Day) (today : Day) : String :=
  let delta := release_date - today
  if 0 < delta then "D-" ++ toString delta
  else if delta = 0 then "D-DAY"
  else "D+" ++ toString delta.natAbs

/-- Spec-side definition (for the degenerate-region comparison): the
entries of every region with a parsable date on or after today and the
requested re-release flag, in traversal order, ignoring regions. -/
def all_regions_bucket (want_re : Bool) (today : Day)
    (results : List RegionalRelease) : List TMDbReleaseInfo :=
  results.flatMap fun entry =>
    entry.release_dates.filterMap fun info =>
      match parse_date info.release_date with
      | none => none
      | some parsed =>
        if is_re info = want_re ∧ today ≤ parsed then
          some ⟨parsed, is_re info⟩
        else none

/-- Spec-side definition: the two-bucket selection the spec describes for
an empty effective region — earliest original release over all regions,
else earliest re-release over all regions. -/
def select_release_no_region (results : List RegionalRelease) (today : Day) :
    Option TMDbReleaseInfo :=
  match firstMinBy (fun r => r.date) (all_regions_bucket false today results) with
  | some r => some r
  | none => firstMinBy (fun r => r.date) (all_regions_bucket true today results)

/-- Embeds Python's `str.strip()` with no arguments: drop leading and
trailing whitespace. -/
def py_strip (s : String) : String :=
  String.mk
    (((s.data.dropWhile Char.isWhitespace).reverse.dropWhile
      Char.isWhitespace).reverse)

/-- Embeds the `MovieData` dataclass (app/services/models.py). -/
structure MovieData where
  title : String
  release_date : Day
  overview : Option String := none
  distributor : Option String := none
  director : Option String := none
  cast : Option (List String) := none
  genre : Option (List String) := none
  poster_url : Option String := none
  source : Option String := none
  external_id : Option String := none
  is_re_release : Bool := false
deriving DecidableEq

/-- Embeds `MovieData.cast_as_string` (an empty or missing list is `None`). -/
def cast_as_string (m : MovieData) : Option String :=
  match m.cast with
  | none => none
  | some [] => none
  | some l => some (String.intercalate ", " l)

/-- Embeds `MovieData.genre_as_string`. -/
def genre_as_string (m : MovieData) : Option String :=
  match m.genre with
  | none => none
  | some [] => none
  | some l => some (String.intercalate ", " l)

/-- Persisted movie row (the `Movie` ORM model used by app/main.py).  The
(source, external_id) uniqueness constraint follows `Project.__table_args__`
in app/models.py; the columns follow the keyword arguments the
`create_movie` call sites in app/main.py pass. -/
structure MovieRow where
  movie_id : Nat
  title : String
  release_date : Day
  distributor : Option String := none
  director : Option String := none
  cast : Option String := none
  genre : Option String := none
  poster_url : Option String := none
  source : Option String := none
  external_id : Option String := none
  is_re_release : Bool := false
deriving DecidableEq

/-- Persisted WaitEntry row (the `UserDDay` ORM model used by app/main.py). -/
structure UserDDayRow where
  user_id : String
  movie_id : Nat
  query_name : String
  dday_label : String
deriving DecidableEq

/-- The relational store: movie rows, wait-entry rows, and the id counter. -/
structure DB where
  movies : List MovieRow
  ddays : List UserDDayRow
  next_movie_id : Nat
deriving DecidableEq

def emptyDB : DB := ⟨[], [], 0⟩

/-- Modelled from the spec: `DDayRepository.get_movie_by_source_and_id` is
absent from src (src/app/db.py holds an older `ProjectRepository` snapshot);
spec section 6 gives the store a get-by-unique-key operation for MediaRecord. -/
def get_movie_by_source_and_id (db : DB) (source external_id : Option String) :
    Option MovieRow :=
  db.movies.find? fun m => m.source == source && m.external_id == external_id

/-- Modelled from the spec: `DDayRepository.get_user_dday` is absent from src;
spec section 3 says a (user, MediaRecord) pair identifies a WaitEntry. -/
def get_user_dday (db : DB) (user_id : String) (movie_id : Nat) :
    Option UserDDayRow :=
  db.ddays.find? fun d => d.user_id == user_id && d.movie_id == movie_id

/-- Modelled from the spec: `DDayRepository.count_waiting_users` is absent from
src; the glossary defines the waiting count as the number of distinct users
with a WaitEntry for the record (rows are per (user, record), so counting rows
counts users). -/
def count_waiting_users (db : DB) (movie_id : Nat) : Nat :=
  (db.ddays.filter fun d => d.movie_id == movie_id).length

/-- SQL uniqueness check for `uq_projects_source_external` (app/models.py):
two rows conflict only when both key columns are non-NULL and equal, since
SQL UNIQUE constraints never compare NULLs equal. -/
def conflicts (a b : MovieRow) : Bool :=
  match a.source, b.source, a.external_id, b.external_id with
  | some s1, some s2, some e1, some e2 => s1 == s2 && e1 == e2
  | _, _, _, _ => false

/-- Raw insert against the movies table: fails exactly when the
(source, external_id) uniqueness constraint of app/models.py is violated. -/
def insert_movie_raw (db : DB) (row : MovieRow) : Except Unit DB :=
  if db.movies.any fun m => conflicts m row then .error ()
  else .ok { db with movies := db.movies ++ [row],
                     next_movie_id := db.next_movie_id + 1 }

/-- Movie row built from resolver output, as the `create_movie` call site in
`upsert_dday` (app/main.py lines 136-149) passes it. -/
def movie_row_of_data (new_id : Nat) (md : MovieData) : MovieRow :=
  { movie_id := new_id
    title := md.title
    release_date := md.release_date
    distributor := md.distributor
    director := md.director
    cast := cast_as_string md
    genre := genre_as_string md
    poster_url := md.poster_url
    source := md.source
    external_id := md.external_id
    is_re_release := md.is_re_release }

/-- Modelled from the spec: `DDayRepository.create_movie` is absent from src;
spec sections 5 and 7 require a uniqueness violation on insert to be treated
as "already exists, re-fetch" rather than propagated to the caller. -/
def create_movie (db : DB) (md : MovieData) : DB × MovieRow :=
  let row := movie_row_of_data db.next_movie_id md
  match insert_movie_raw db row with
  | .ok db2 => (db2, row)
  | .error _ =>
    match get_movie_by_source_and_id db md.source md.external_id with
    | some m => (db, m)
    | none => (db, row) -- unreachable: a conflict implies a row with these keys

/-- Modelled from the spec: `DDayRepository.create_user_dday` is absent from
src; it inserts the WaitEntry row for (user, movie). -/
def create_user_dday (db : DB) (user_id : String) (movie_id : Nat)
    (query_name dday_label : String) : DB × UserDDayRow :=
  let row : UserDDayRow := ⟨user_id, movie_id, query_name, dday_label⟩
  ({ db with ddays := db.ddays ++ [row] }, row)

/-- Embeds the `DDayResponse` fields filled by `_dday_to_response`. -/
structure DDayResponse where
  name : String
  movie_title : String
  release_date : Day
  dday : String
  waiting_count : Nat
  message : Option String
  poster_url : Option String
  distributor : Option String
  director : Option String
  cast : Option (List String)
  genre : Option (List String)
deriving DecidableEq

/-- Embeds `_split_list_field` (app/main.py). -/
def split_list_field (raw : Option String) : Option (List String) :=
  match raw with
  | none => none
  | some s =>
    if s == "" then none
    else
      let values := ((s.splitOn ",").map py_strip).filter fun c => !(c == "")
      if values.isEmpty then none else some values

/-- Embeds `_dday_to_response` (app/main.py lines 354-371): the `dday` field
is freshly computed from the movie's release date and today; the stored
`dday_label` of the WaitEntry is never read. -/
def dday_to_response (db : DB) (movie : MovieRow) (user_dday : UserDDayRow)
    (today : Day) (message : Option String) : DDayResponse :=
  { name := user_dday.query_name
    movie_title := movie.title
    release_date := movie.release_date
    dday := compute_dday movie.release_date today
    waiting_count := count_waiting_users db movie.movie_id
    message := message
    poster_url := movie.poster_url
    distributor := movie.distributor
    director := movie.director
    cast := split_list_field movie.cast
    genre := split_list_field movie.genre }

def already_waiting_message : String := "이미 서로 기다리고 있는 작품입니다!"

def created_message : String := "새로운 D-Day를 기록했습니다."

/-- Embeds the store interaction of `upsert_dday` (app/main.py lines
122-160): look up the movie by (source, external_id); if the user already
waits on it return that entry with the already-waiting message; otherwise
create the movie when absent, insert the WaitEntry and return the
newly-created view. -/
def upsert_dday (db : DB) (user_id : String) (raw_query : String)
    (md : MovieData) (today : Day) : DB × DDayResponse :=
  match get_movie_by_source_and_id db md.source md.external_id with
  | some movie =>
    match get_user_dday db user_id movie.movie_id with
    | some existing =>
      (db, dday_to_response db movie existing today (some already_waiting_message))
    | none =>
      let r := create_user_dday db user_id movie.movie_id (py_strip raw_query)
        (compute_dday movie.release_date today)
      (r.1, dday_to_response r.1 movie r.2 today (some created_message))
  | none =>
    let c := create_movie db md
    let r := create_user_dday c.1 user_id c.2.movie_id (py_strip raw_query)
      (compute_dday c.2.release_date today)
    (r.1, dday_to_response r.1 c.2 r.2 today (some created_message))

/-- Python exception classes that can escape `orchestrate_movie_lookup`: the
`TMDbError` family, or anything else (e.g. httpx transport errors, which
`TMDbClient._request` does not convert). -/
inductive PyExc where
  | tmdbNotFound
  | tmdbNoUpcoming
  | tmdbError
  | otherExc
deriving DecidableEq

/-- Outcome of the HTTP call performed inside `TMDbClient._request`. -/
inductive HttpResult where
  | ok
  | badStatus (code : Nat)
  | transportFailure
deriving DecidableEq

/-- Embeds the error behaviour of `TMDbClient._request` (app/services/tmdb.py
lines 58-71): a missing API key raises `TMDbError`; `raise_for_status`
converts a non-2xx response into `TMDbError`; transport errors are raised by
`client.request` outside the try block, so they stay httpx exceptions. -/
def tmdb_request (api_key : String) (http : HttpResult) : Except PyExc Unit :=
  if api_key == "" then .error .tmdbError
  else
    match http with
    | .ok => .ok ()
    | .badStatus _ => .error .tmdbError
    | .transportFailure => .error .otherExc

/-- Result of the synchronous create endpoint: a success body, an
HTTPException with an explicit status code, or an exception the route
handler does not catch (surfaced by the framework as an internal error,
not as one of the mapped statuses). -/
inductive EndpointResult where
  | response (db : DB) (r : DDayResponse)
  | httpError (status_code : Nat) (detail : String)
  | unhandled (e : PyExc)
deriving DecidableEq

def not_found_detail : String := "영화를 찾지 못했습니다. 제목이나 연도를 다시 알려주세요."

def no_upcoming_detail : String := "예정된 개봉/방영일이 없어 D-Day를 만들 수 없어요."

def upstream_detail : String := "영화 정보를 불러오는 중 문제가 발생했습니다."

/-- Embeds the validation and error dispatch of `upsert_dday` (app/main.py
lines 96-120): an empty trimmed query is rejected with 422 before any
lookup; `TMDbNotFound`, `TMDbNoUpcomingRelease` and other `TMDbError` are
mapped to 404, 400 and 502; any other exception raised by the lookup is not
caught by the handler. -/
def upsert_endpoint (db : DB) (user_id : String) (query : String)
    (lookup : Except PyExc MovieData) (today : Day) : EndpointResult :=
  if py_strip query == "" then .httpError 422 "query must not be empty"
  else
    match lookup with
    | .error .tmdbNotFound => .httpError 404 not_found_detail
    | .error .tmdbNoUpcoming => .httpError 400 no_upcoming_detail
    | .error .tmdbError => .httpError 502 upstream_detail
    | .error .otherExc => .unhandled .otherExc
    | .ok md =>
      let r := upsert_dday db user_id query md today
      .response r.1 r.2

/-- Events yielded by `run_chat_orchestrator_events`, as consumed by the
loop in `stream_chat.event_stream` (the movie and tv cases behave alike). -/
inductive OrchEvent where
  | analysis (message : Option String)
  | tool_started (message : Option String)
  | movie_found (md : MovieData) (message : Option String)
  | token (message : Option String)
  | final_event (message : Option String)
  | unknown
deriving DecidableEq

/-- Exceptions that can be raised inside the streaming loop. -/
inductive StreamExc where
  | notFound
  | noUpcoming
  | tmdbError
  | otherExc (message : String)
deriving DecidableEq

/-- Server-sent events emitted by `stream_chat.event_stream`. -/
inductive SSE where
  | start (message : String)
  | analysis (message : String)
  | tool_started (message : String)
  | tool_result (title : String)
  | dday_event
  | confirmation_required (waiting_count : Nat)
  | token (message : String)
  | assistant_message (message : String)
  | error_event (message : String)
  | end_sentinel
deriving DecidableEq

def fallback_message : String := "어떤 영화를 기다리고 싶은지 알려주세요."

def analysis_default : String := "요청을 분석 중입니다."

def tool_started_default : String := "TMDB에서 개봉 정보를 찾는 중..."

/-- Embeds the final message choice `event.get("message") or fallback`
(a missing or empty message falls back). -/
def final_text (msg : Option String) : String :=
  match msg with
  | some s => if s == "" then fallback_message else s
  | none => fallback_message

/-- Embeds the per-event emission of the loop body in
`stream_chat.event_stream` (app/main.py lines 262-326), except the final
event which terminates the loop. -/
def emit_event (db : DB) (user_id : String) : OrchEvent → List SSE
  | .analysis msg => [.analysis (msg.getD analysis_default)]
  | .tool_started msg => [.tool_started (msg.getD tool_started_default)]
  | .movie_found md _ =>
    match get_movie_by_source_and_id db md.source md.external_id with
    | some m =>
      match get_user_dday db user_id m.movie_id with
      | some _ => [.tool_result md.title, .dday_event]
      | none => [.tool_result md.title,
                 .confirmation_required (count_waiting_users db m.movie_id)]
    | none => [.tool_result md.title, .confirmation_required 0]
  | .token msg =>
    match msg with
    | some s => if s == "" then [] else [.token s]
    | none => []
  | .final_event _ => []
  | .unknown => []

/-- Embeds the loop of `stream_chat.event_stream`: events are processed in
order; a final event emits the assistant message and breaks (the Bool
records `handled_final`). -/
def process_events (db : DB) (user_id : String) : List OrchEvent → List SSE × Bool
  | [] => ([], false)
  | .final_event msg :: _ => ([.assistant_message (final_text msg)], true)
  | e :: rest =>
    let out := emit_event db user_id e
    let r := process_events db user_id rest
    (out ++ r.1, r.2)

/-- Embeds the except clauses of `stream_chat.event_stream` (app/main.py
lines 331-347): each exception is converted into one user-visible event. -/
def convert_exc : StreamExc → SSE
  | .notFound => .assistant_message not_found_detail
  | .noUpcoming => .assistant_message no_upcoming_detail
  | .tmdbError => .error_event upstream_detail
  | .otherExc msg => .error_event ("예상치 못한 오류가 발생했습니다: " ++ msg)

/-- One execution of the orchestrator generator: the events it yielded, and
the exception (if any) that interrupted it afterwards. -/
structure OrchRun where
  events : List OrchEvent
  failure : Option StreamExc
deriving DecidableEq

def start_message : String := "대화를 시작합니다."

/-- Embeds `stream_chat.event_stream` (app/main.py lines 258-349): the start
event, then the loop output (with the no-final fallback), or the loop output
up to an exception followed by its converted event, and finally the end
sentinel emitted by the finally block in every case. -/
def event_stream (db : DB) (user_id : String) (run : OrchRun) : List SSE :=
  SSE.start start_message ::
    ((match run.failure with
      | some e => (process_events db user_id run.events).1 ++ [convert_exc e]
      | none =>
        let r := process_events db user_id run.events
        r.1 ++ (if r.2 then []
                else [.token fallback_message, .assistant_message fallback_message]))
      ++ [SSE.end_sentinel])

/-- Concrete resolver output used in closed instances. -/
def demo_movie_data : MovieData :=
  { title := "프로젝트 헤일메리", release_date := 10,
    source := some "tmdb", external_id := some "123" }

/-- The movie row `create_movie` inserts for `demo_movie_data` into the
empty store. -/
def demo_movie_row : MovieRow := movie_row_of_data 0 demo_movie_data

/-- WaitEntry row of user alice for `demo_movie_row`. -/
def demo_wait_row : UserDDayRow := ⟨"alice", 0, "q", "D-10"⟩

/-- Store holding the demo movie and alice's WaitEntry. -/
def demoDB : DB := ⟨[demo_movie_row], [demo_wait_row], 1⟩

/-- Store holding the demo movie but no WaitEntry (the state a losing
racer sees when its insert hits the uniqueness constraint). -/
def demoDB2 : DB := ⟨[demo_movie_row], [], 1⟩

theorem foldlMin_cons {α : Type} (key : α → Int) (a b : α) (bs : List α) :
    foldlMin key a (b :: bs) = foldlMin key (if key b < key a then b else a) bs := rfl

theorem foldlMin_mem {α : Type} (key : α → Int) :
    ∀ (xs : List α) (a : α), foldlMin key a xs = a ∨ foldlMin key a xs ∈ xs := by
  intro xs
  induction xs with
  | nil => intro a; left; rfl
  | cons b bs ih =>
    intro a
    rw [foldlMin_cons]
    rcases ih (if key b < key a then b else a) with h | h
    · by_cases hb : key b < key a
      · right; rw [h, if_pos hb]; exact List.mem_cons_self _ _
      · left; rw [h, if_neg hb]
    · right; exact List.mem_cons_of_mem _ h

theorem foldlMin_le {α : Type} (key : α → Int) :
    ∀ (xs : List α) (a : α), key (foldlMin key a xs) ≤ key a ∧
      ∀ x ∈ xs, key (foldlMin key a xs) ≤ key x := by
  intro xs
  induction xs with
  | nil =>
    intro a
    exact ⟨le_refl _, by intro x hx; cases hx⟩
  | cons b bs ih =>
    intro a
    rw [foldlMin_cons]
    obtain ⟨h1, h2⟩ := ih (if key b < key a then b else a)
    have hba : key (if key b < key a then b else a) ≤ key a := by
      by_cases hb : key b < key a
      · rw [if_pos hb]; exact le_of_lt hb
      · rw [if_neg hb]
    have hbb : key (if key b < key a then b else a) ≤ key b := by
      by_cases hb : key b < key a
      · rw [if_pos hb]
      · rw [if_neg hb]; exact le_of_not_lt hb
    refine ⟨le_trans h1 hba, ?_⟩
    intro x hx
    rcases List.mem_cons.mp hx with rfl | hx
    · exact le_trans h1 hbb
    · exact h2 x hx

theorem firstMinBy_eq_none {α : Type} (key : α → Int) (l : List α) :
    firstMinBy key l = none ↔ l = [] := by
  cases l with
  | nil => simp [firstMinBy]
  | cons x xs => simp [firstMinBy]

theorem firstMinBy_spec {α : Type} (key : α → Int) (l : List α) (r : α)
    (h : firstMinBy key l = some r) : r ∈ l ∧ ∀ x ∈ l, key r ≤ key x := by
  cases l with
  | nil => cases h
  | cons x xs =>
    simp only [firstMinBy, Option.some.injEq] at h
    subst h
    constructor
    · rcases foldlMin_mem key xs x with h1 | h1
      · rw [h1]; exact List.mem_cons_self _ _
      · exact List.mem_cons_of_mem _ h1
    · intro y hy
      obtain ⟨h1, h2⟩ := foldlMin_le key xs x
      rcases List.mem_cons.mp hy with rfl | hy
      · exact h1
      · exact h2 y hy

theorem foldlMax_cons {α : Type} (key : α → Int) (a b : α) (bs : List α) :
    foldlMax key a (b :: bs) = foldlMax key (if key a < key b then b else a) bs := rfl

theorem foldlMax_mem {α : Type} (key : α → Int) :
    ∀ (xs : List α) (a : α), foldlMax key a xs = a ∨ foldlMax key a xs ∈ xs := by
  intro xs
  induction xs with
  | nil => intro a; left; rfl
  | cons b bs ih =>
    intro a
    rw [foldlMax_cons]
    rcases ih (if key a < key b then b else a) with h | h
    · by_cases hb : key a < key b
      · right; rw [h, if_pos hb]; exact List.mem_cons_self _ _
      · left; rw [h, if_neg hb]
    · right; exact List.mem_cons_of_mem _ h

theorem foldlMax_le {α : Type} (key : α → Int) :
    ∀ (xs : List α) (a : α), key a ≤ key (foldlMax key a xs) ∧
      ∀ x ∈ xs, key x ≤ key (foldlMax key a xs) := by
  intro xs
  induction xs with
  | nil =>
    intro a
    exact ⟨le_refl _, by intro x hx; cases hx⟩
  | cons b bs ih =>
    intro a
    rw [foldlMax_cons]
    obtain ⟨h1, h2⟩ := ih (if key a < key b then b else a)
    have hba : key a ≤ key (if key a < key b then b else a) := by
      by_cases hb : key a < key b
      · rw [if_pos hb]; exact le_of_lt hb
      · rw [if_neg hb]
    have hbb : key b ≤ key (if key a < key b then b else a) := by
      by_cases hb : key a < key b
      · rw [if_pos hb]
      · rw [if_neg hb]; exact le_of_not_lt hb
    refine ⟨le_trans hba h1, ?_⟩
    intro x hx
    rcases List.mem_cons.mp hx with rfl | hx
    · exact le_trans hbb h1
    · exact h2 x hx

theorem firstMaxBy_eq_none {α : Type} (key : α → Int) (l : List α) :
    firstMaxBy key l = none ↔ l = [] := by
  cases l with
  | nil => simp [firstMaxBy]
  | cons x xs => simp [firstMaxBy]

theorem firstMaxBy_spec {α : Type} (key : α → Int) (l : List α) (r : α)
    (h : firstMaxBy key l = some r) : r ∈ l ∧ ∀ x ∈ l, key x ≤ key r := by
  cases l with
  | nil => cases h
  | cons x xs =>
    simp only [firstMaxBy, Option.some.injEq] at h
    subst h
    constructor
    · rcases foldlMax_mem key xs x with h1 | h1
      · rw [h1]; exact List.mem_cons_self _ _
      · exact List.mem_cons_of_mem _ h1
    · intro y hy
      obtain ⟨h1, h2⟩ := foldlMax_le key xs x
      rcases List.mem_cons.mp hy with rfl | hy
      · exact h1
      · exact h2 y hy

theorem mem_release_bucket {region_code : String} {p w : Bool} {today : Day}
    {results : List RegionalRelease} {x : TMDbReleaseInfo} :
    x ∈ release_bucket region_code p w today results ↔
      (x.is_re_release = w ∧ ∃ entry ∈ results, ∃ info ∈ entry.release_dates,
        is_preferred region_code entry = p ∧ is_re info = w ∧
        parse_date info.release_date = some x.date ∧ today ≤ x.date) := by
  simp only [release_bucket, List.mem_flatMap]
  constructor
  · rintro ⟨entry, hentry, hx⟩
    split at hx
    case isTrue hp =>
      simp only [List.mem_filterMap] at hx
      obtain ⟨info, hinfo, hfx⟩ := hx
      split at hfx
      · cases hfx
      case h_2 parsed hpd =>
        split at hfx
        case isTrue hc =>
          injection hfx with hfx
          subst hfx
          exact ⟨hc.1, entry, hentry, info, hinfo, hp, hc.1, hpd, hc.2⟩
        case isFalse hc => cases hfx
    case isFalse hp => cases hx
  · rintro ⟨hw, entry, hentry, info, hinfo, hp, hre, hpd, hd⟩
    refine ⟨entry, hentry, ?_⟩
    rw [if_pos hp]
    rw [List.mem_filterMap]
    refine ⟨info, hinfo, ?_⟩
    rw [hpd]
    show (if is_re info = w ∧ today ≤ x.date then
        some ⟨x.date, is_re info⟩ else none) = some x
    rw [if_pos ⟨hre, hd⟩, hre, ← hw]

theorem mem_candidate_future {results : List SearchResult} {today : Day}
    {d : Day} {c : SearchResult} :
    (d, c) ∈ candidate_future results today ↔
      c ∈ results ∧ parse_date c.release_date = some d ∧ today ≤ d := by
  simp only [candidate_future, List.mem_filterMap]
  constructor
  · rintro ⟨item, hitem, hf⟩
    split at hf
    · cases hf
    case h_2 rd hpd =>
      split at hf
      case isTrue hc =>
        injection hf with hf
        cases hf
        exact ⟨hitem, hpd, hc⟩
      case isFalse hc => cases hf
  · rintro ⟨hc, hpd, hd⟩
    refine ⟨c, hc, ?_⟩
    rw [hpd]
    show (if today ≤ d then some (d, c) else none) = some (d, c)
    rw [if_pos hd]

theorem mem_candidate_fallback {results : List SearchResult} {today : Day}
    {d : Day} {c : SearchResult} :
    (d, c) ∈ candidate_fallback results today ↔
      c ∈ results ∧ parse_date c.release_date = some d ∧ d < today := by
  simp only [candidate_fallback, List.mem_filterMap]
  constructor
  · rintro ⟨item, hitem, hf⟩
    split at hf
    · cases hf
    case h_2 rd hpd =>
      split at hf
      case isTrue hc =>
        injection hf with hf
        cases hf
        exact ⟨hitem, hpd, hc⟩
      case isFalse hc => cases hf
  · rintro ⟨hc, hpd, hd⟩
    refine ⟨c, hc, ?_⟩
    rw [hpd]
    show (if d < today then some (d, c) else none) = some (d, c)
    rw [if_pos hd]

theorem firstMinBy_of_ne_nil {α : Type} (key : α → Int) (l : List α)
    (h : l ≠ []) : ∃ r, firstMinBy key l = some r := by
  cases hfm : firstMinBy key l with
  | none => exact absurd ((firstMinBy_eq_none key l).mp hfm) h
  | some r => exact ⟨r, rfl⟩

theorem firstMaxBy_of_ne_nil {α : Type} (key : α → Int) (l : List α)
    (h : l ≠ []) : ∃ r, firstMaxBy key l = some r := by
  cases hfm : firstMaxBy key l with
  | none => exact absurd ((firstMaxBy_eq_none key l).mp hfm) h
  | some r => exact ⟨r, rfl⟩

theorem select_release_mem {results : List RegionalRelease} {rc : String}
    {today : Day} {r : TMDbReleaseInfo}
    (h : select_release results rc today = some r) :
    ∃ p w, r ∈ release_bucket rc p w today results := by
  unfold select_release at h
  split at h
  case h_1 r1 heq =>
    injection h with h
    subst h
    exact ⟨true, false, (firstMinBy_spec _ _ _ heq).1⟩
  case h_2 heq1 =>
    split at h
    case h_1 r1 heq =>
      injection h with h
      subst h
      exact ⟨true, true, (firstMinBy_spec _ _ _ heq).1⟩
    case h_2 heq2 =>
      split at h
      case h_1 r1 heq =>
        injection h with h
        subst h
        exact ⟨false, false, (firstMinBy_spec _ _ _ heq).1⟩
      case h_2 heq3 =>
        exact ⟨false, true, (firstMinBy_spec _ _ _ h).1⟩

/-- C3: for every release date and today, with delta the whole-day
difference, the label is D-delta for positive delta, D-DAY for zero and
D+|delta| for negative delta, and the service-layer
`calculate_dday_label` and the route-layer `_compute_dday` agree. -/
theorem dday_label_spec :
    ∀ (t r : Day) (n : Nat),
      (0 < n → calculate_dday_label (t + n) t = "D-" ++ toString n)
      ∧ calculate_dday_label t t = "D-DAY"
      ∧ (0 < n → calculate_dday_label (t - n) t = "D+" ++ toString n)
      ∧ calculate_dday_label r t = compute_dday r t := by
  intro t r n
  refine ⟨?_, ?_, ?_, rfl⟩
  · intro hn
    have hd : t + (n : Int) - t = (n : Int) := by ring
    have hpos : (0 : Int) < (n : Int) := by exact_mod_cast hn
    simp only [calculate_dday_label]
    rw [hd, if_pos hpos]
    rfl
  · simp [calculate_dday_label]
  · intro hn
    have hd : t - (n : Int) - t = -(n : Int) := by ring
    have hpos : (0 : Int) < (n : Int) := by exact_mod_cast hn
    have habs : (-(n : Int)).natAbs = n := by omega
    have h1 : ¬(0 < -(n : Int)) := by omega
    have h2 : ¬(-(n : Int) = 0) := by omega
    simp only [calculate_dday_label]
    rw [hd, if_neg h1, if_neg h2, habs]

/-- Closed instance of the D-Day labeler claim: a release 10 days out is
labeled D-10. -/
theorem dday_label_spec_witness :
    calculate_dday_label ((0 : Int) + (10 : Nat)) 0 = "D-" ++ toString (10 : Nat) :=
  (dday_label_spec 0 0 10).1 (by decide)

/-- C8: every returned view carries a label computed from the movie's
release date and today: `_dday_to_response` computes `dday` freshly, its
output does not depend on the WaitEntry's stored label, and every response
produced by `upsert_dday` (create and already-waiting paths) has its label
recomputed from the returned release date. -/
theorem label_recomputed_at_read :
    ∀ (db : DB) (movie : MovieRow) (ud : UserDDayRow) (today : Day)
      (msg : Option String),
      (dday_to_response db movie ud today msg).dday
          = compute_dday movie.release_date today
      ∧ (∀ label, dday_to_response db movie { ud with dday_label := label } today msg
          = dday_to_response db movie ud today msg)
      ∧ (∀ (u q : String) (md : MovieData),
          ((upsert_dday db u q md today).2).dday
            = compute_dday (((upsert_dday db u q md today).2).release_date) today) := by
  intro db movie ud today msg
  refine ⟨rfl, fun label => rfl, ?_⟩
  intro u q md
  cases hm : get_movie_by_source_and_id db md.source md.external_id with
  | none => simp [upsert_dday, hm, dday_to_response]
  | some m =>
    cases hd : get_user_dday db u m.movie_id with
    | some ex => simp [upsert_dday, hm, hd, dday_to_response]
    | none => simp [upsert_dday, hm, hd, dday_to_response]

/-- C10: with an empty effective region code every regional entry counts
as requested-region, so both any-region fallback buckets are empty and
the selection degenerates to original-release-before-re-release over the
entries of all regions. -/
theorem empty_region_degenerates :
    ∀ (results : List RegionalRelease) (today : Day),
      release_bucket "" false false today results = []
      ∧ release_bucket "" false true today results = []
      ∧ release_bucket "" true false today results
          = all_regions_bucket false today results
      ∧ release_bucket "" true true today results
          = all_regions_bucket true today results
      ∧ select_release results "" today = select_release_no_region results today := by
  intro results today
  have hpref : ∀ entry, is_preferred "" entry = true := by
    intro entry
    simp [is_preferred]
  have hfb : ∀ w, release_bucket "" false w today results = [] := by
    intro w
    simp [release_bucket, hpref]
  have heq : ∀ w, release_bucket "" true w today results
      = all_regions_bucket w today results := by
    intro w
    simp [release_bucket, all_regions_bucket, hpref]
  refine ⟨hfb false, hfb true, heq false, heq true, ?_⟩
  unfold select_release select_release_no_region
  rw [hfb false, hfb true, heq false, heq true]
  cases h1 : firstMinBy (fun r => r.date) (all_regions_bucket false today results) with
  | some r => rfl
  | none =>
    cases h2 : firstMinBy (fun r => r.date) (all_regions_bucket true today results) with
    | some r => rfl
    | none => rfl

/-- C9: every successful release resolution returns a date on or after
today, including when the chosen entry is a re-release: all four buckets
admit only dates at or past today. -/
theorem resolved_date_not_past :
    ∀ (results : List RegionalRelease) (rc : String) (today : Day)
      (r : TMDbReleaseInfo),
      (select_release results rc today = some r → today ≤ r.date)
      ∧ (resolve_release results rc today = .ok r → today ≤ r.date) := by
  intro results rc today r
  have key : select_release results rc today = some r → today ≤ r.date := by
    intro h
    obtain ⟨p, w, hmem⟩ := select_release_mem h
    obtain ⟨-, -, -, -, -, -, -, -, hd⟩ := mem_release_bucket.mp hmem
    exact hd
  refine ⟨key, ?_⟩
  intro h
  unfold resolve_release at h
  split at h
  · cases h
  case h_2 r1 heq =>
    injection h with h
    subst h
    exact key heq

/-- Closed instance of the no-past-dates claim: a lone future re-release
resolves successfully and its date is on or after today. -/
theorem resolved_date_not_past_witness :
    (3 : Int) ≤ (TMDbReleaseInfo.mk 5 true).date :=
  (resolved_date_not_past [⟨"KR", [⟨.iso 5, 5⟩]⟩] "KR" 3 ⟨5, true⟩).2 (by rfl)

/-- C1: release-date selection partitions the future-dated entries into the
four buckets (requested-region original, requested-region re-release,
any-region original, any-region re-release, re-release meaning type 5),
evaluates them in that strict order returning the earliest date of the
first non-empty bucket, fails with NoUpcomingRelease when all are empty,
and in particular a requested-region original release 10 days out beats a
requested-region re-release 2 days out and an any-region original release
1 day out. -/
theorem release_bucket_priority :
    (∀ (results : List RegionalRelease) (rc : String) (today : Day),
      (∀ (p w : Bool) (d : Day),
        (⟨d, w⟩ : TMDbReleaseInfo) ∈ release_bucket rc p w today results ↔
          ∃ entry ∈ results, ∃ info ∈ entry.release_dates,
            is_preferred rc entry = p ∧ is_re info = w ∧
            parse_date info.release_date = some d ∧ today ≤ d)
      ∧ (release_bucket rc true false today results ≠ [] →
          ∃ r, select_release results rc today = some r
            ∧ r ∈ release_bucket rc true false today results
            ∧ ∀ x ∈ release_bucket rc true false today results, r.date ≤ x.date)
      ∧ (release_bucket rc true false today results = [] →
         release_bucket rc true true today results ≠ [] →
          ∃ r, select_release results rc today = some r
            ∧ r ∈ release_bucket rc true true today results
            ∧ ∀ x ∈ release_bucket rc true true today results, r.date ≤ x.date)
      ∧ (release_bucket rc true false today results = [] →
         release_bucket rc true true today results = [] →
         release_bucket rc false false today results ≠ [] →
          ∃ r, select_release results rc today = some r
            ∧ r ∈ release_bucket rc false false today results
            ∧ ∀ x ∈ release_bucket rc false false today results, r.date ≤ x.date)
      ∧ (release_bucket rc true false today results = [] →
         release_bucket rc true true today results = [] →
         release_bucket rc false false today results = [] →
         release_bucket rc false true today results ≠ [] →
          ∃ r, select_release results rc today = some r
            ∧ r ∈ release_bucket rc false true today results
            ∧ ∀ x ∈ release_bucket rc false true today results, r.date ≤ x.date)
      ∧ (release_bucket rc true false today results = [] →
         release_bucket rc true true today results = [] →
         release_bucket rc false false today results = [] →
         release_bucket rc false true today results = [] →
          resolve_release results rc today = .error .noUpcomingRelease))
    ∧ resolve_release
        [⟨"KR", [⟨.iso 10, 3⟩, ⟨.iso 2, 5⟩]⟩, ⟨"US", [⟨.iso 1, 3⟩]⟩] "KR" 0
        = .ok ⟨10, false⟩ := by
  refine ⟨?_, by rfl⟩
  intro results rc today
  refine ⟨?_, ?_, ?_, ?_, ?_, ?_⟩
  · intro p w d
    constructor
    · intro h
      exact (mem_release_bucket.mp h).2
    · intro h
      exact mem_release_bucket.mpr ⟨rfl, h⟩
  · intro ha
    obtain ⟨r, hr⟩ := firstMinBy_of_ne_nil (fun x => x.date) _ ha
    obtain ⟨hmem, hmin⟩ := firstMinBy_spec _ _ _ hr
    refine ⟨r, ?_, hmem, hmin⟩
    unfold select_release
    rw [hr]
  · intro ha hb
    obtain ⟨r, hr⟩ := firstMinBy_of_ne_nil (fun x => x.date) _ hb
    obtain ⟨hmem, hmin⟩ := firstMinBy_spec _ _ _ hr
    refine ⟨r, ?_, hmem, hmin⟩
    unfold select_release
    rw [(firstMinBy_eq_none _ _).mpr ha, hr]
  · intro ha hb hc
    obtain ⟨r, hr⟩ := firstMinBy_of_ne_nil (fun x => x.date) _ hc
    obtain ⟨hmem, hmin⟩ := firstMinBy_spec _ _ _ hr
    refine ⟨r, ?_, hmem, hmin⟩
    unfold select_release
    rw [(firstMinBy_eq_none _ _).mpr ha, (firstMinBy_eq_none _ _).mpr hb, hr]
  · intro ha hb hc hd
    obtain ⟨r, hr⟩ := firstMinBy_of_ne_nil (fun x => x.date) _ hd
    obtain ⟨hmem, hmin⟩ := firstMinBy_spec _ _ _ hr
    refine ⟨r, ?_, hmem, hmin⟩
    unfold select_release
    rw [(firstMinBy_eq_none _ _).mpr ha, (firstMinBy_eq_none _ _).mpr hb,
      (firstMinBy_eq_none _ _).mpr hc, hr]
  · intro ha hb hc hd
    have hsel : select_release results rc today = none := by
      unfold select_release
      rw [(firstMinBy_eq_none _ _).mpr ha, (firstMinBy_eq_none _ _).mpr hb,
        (firstMinBy_eq_none _ _).mpr hc, (firstMinBy_eq_none _ _).mpr hd]
    unfold resolve_release
    rw [hsel]

/-- Closed instance of the release-selection claim: with only past dates
all four buckets are empty and resolution fails with NoUpcomingRelease. -/
theorem release_bucket_priority_witness :
    resolve_release [⟨"KR", [⟨.iso (-5), 3⟩]⟩] "KR" 0
      = Except.error TMDbFailure.noUpcomingRelease :=
  ((release_bucket_priority.1 [⟨"KR", [⟨.iso (-5), 3⟩]⟩] "KR" 0).2.2.2.2.2)
    (by decide) (by decide) (by decide) (by decide)

/-- C2: candidate title selection prefers the candidate with the earliest
today-or-future parsed date; with no future candidate it picks the one with
the latest past parsed date; with no parsable date at all it picks the
first result; and the empty result list fails with NotFound (a non-empty
list always yields a candidate). -/
theorem candidate_selection :
    ∀ (results : List SearchResult) (today : Day),
      ((∃ c ∈ results, ∃ d, parse_date c.release_date = some d ∧ today ≤ d) →
        ∃ c d, select_candidate results today = some c ∧ c ∈ results
          ∧ parse_date c.release_date = some d ∧ today ≤ d
          ∧ ∀ c2 ∈ results, ∀ d2, parse_date c2.release_date = some d2 →
              today ≤ d2 → d ≤ d2)
      ∧ ((∀ c ∈ results, ∀ d, parse_date c.release_date = some d → d < today) →
         (∃ c ∈ results, ∃ d, parse_date c.release_date = some d) →
        ∃ c d, select_candidate results today = some c ∧ c ∈ results
          ∧ parse_date c.release_date = some d ∧ d < today
          ∧ ∀ c2 ∈ results, ∀ d2, parse_date c2.release_date = some d2 → d2 ≤ d)
      ∧ ((∀ c ∈ results, parse_date c.release_date = none) →
          select_candidate results today = results.head?)
      ∧ search_stage1 [] today = .error .notFound
      ∧ (results ≠ [] → ∃ c, search_stage1 results today = .ok c) := by
  intro results today
  refine ⟨?_, ?_, ?_, rfl, ?_⟩
  · rintro ⟨c0, hc0, d0, hpd0, hd0⟩
    have hmem0 : (d0, c0) ∈ candidate_future results today :=
      mem_candidate_future.mpr ⟨hc0, hpd0, hd0⟩
    obtain ⟨p, hp⟩ := firstMinBy_of_ne_nil (fun q => q.1) _
      (List.ne_nil_of_mem hmem0)
    obtain ⟨hpmem, hpmin⟩ := firstMinBy_spec _ _ _ hp
    have hchar := mem_candidate_future.mp
      (show (p.1, p.2) ∈ candidate_future results today from hpmem)
    refine ⟨p.2, p.1, ?_, hchar.1, hchar.2.1, hchar.2.2, ?_⟩
    · unfold select_candidate
      rw [hp]
    · intro c2 hc2 d2 hpd2 hd2
      exact hpmin _ (mem_candidate_future.mpr ⟨hc2, hpd2, hd2⟩)
  · rintro hall ⟨c0, hc0, d0, hpd0⟩
    have hfut_nil : candidate_future results today = [] := by
      cases hfe : candidate_future results today with
      | nil => rfl
      | cons x xs =>
        have hx : x ∈ candidate_future results today := by
          rw [hfe]
          exact List.mem_cons_self _ _
        have hchar := mem_candidate_future.mp
          (show (x.1, x.2) ∈ candidate_future results today from hx)
        exact absurd hchar.2.2 (not_le.mpr (hall x.2 hchar.1 x.1 hchar.2.1))
    have hmem0 : (d0, c0) ∈ candidate_fallback results today :=
      mem_candidate_fallback.mpr ⟨hc0, hpd0, hall c0 hc0 d0 hpd0⟩
    obtain ⟨p, hp⟩ := firstMaxBy_of_ne_nil (fun q => q.1) _
      (List.ne_nil_of_mem hmem0)
    obtain ⟨hpmem, hpmax⟩ := firstMaxBy_spec _ _ _ hp
    have hchar := mem_candidate_fallback.mp
      (show (p.1, p.2) ∈ candidate_fallback results today from hpmem)
    refine ⟨p.2, p.1, ?_, hchar.1, hchar.2.1, hchar.2.2, ?_⟩
    · unfold select_candidate
      rw [(firstMinBy_eq_none _ _).mpr hfut_nil, hp]
    · intro c2 hc2 d2 hpd2
      exact hpmax _ (mem_candidate_fallback.mpr ⟨hc2, hpd2, hall c2 hc2 d2 hpd2⟩)
  · intro hnone
    have h1 : candidate_future results today = [] := by
      unfold candidate_future
      rw [List.filterMap_eq_nil_iff]
      intro a ha
      rw [hnone a ha]
    have h2 : candidate_fallback results today = [] := by
      unfold candidate_fallback
      rw [List.filterMap_eq_nil_iff]
      intro a ha
      rw [hnone a ha]
    unfold select_candidate
    rw [(firstMinBy_eq_none _ _).mpr h1, (firstMaxBy_eq_none _ _).mpr h2]
  · intro hne
    cases hsc : select_candidate results today with
    | some c =>
      refine ⟨c, ?_⟩
      unfold search_stage1
      rw [hsc]
    | none =>
      exfalso
      unfold select_candidate at hsc
      split at hsc
      · cases hsc
      · split at hsc
        · cases hsc
        · exact hne (List.head?_eq_none_iff.mp hsc)

/-- Closed instance of the candidate-selection claim: among two future
candidates the one with the earlier date is chosen. -/
theorem candidate_selection_witness :
    ∃ c d, select_candidate [⟨1, .iso 7⟩, ⟨2, .iso 3⟩] 0 = some c
      ∧ c ∈ [(⟨1, .iso 7⟩ : SearchResult), ⟨2, .iso 3⟩]
      ∧ parse_date c.release_date = some d ∧ (0 : Int) ≤ d
      ∧ ∀ c2 ∈ [(⟨1, .iso 7⟩ : SearchResult), ⟨2, .iso 3⟩], ∀ d2,
          parse_date c2.release_date = some d2 → (0 : Int) ≤ d2 → d ≤ d2 :=
  (candidate_selection [⟨1, .iso 7⟩, ⟨2, .iso 3⟩] 0).1
    ⟨⟨1, .iso 7⟩, by decide, 7, by decide, by decide⟩

theorem conflicts_eq_true {a b : MovieRow} (h : conflicts a b = true) :
    a.source = b.source ∧ a.external_id = b.external_id := by
  cases hms : a.source with
  | none => simp [conflicts, hms] at h
  | some s1 =>
    cases hbs : b.source with
    | none => simp [conflicts, hms, hbs] at h
    | some s2 =>
      cases hme : a.external_id with
      | none => simp [conflicts, hms, hbs, hme] at h
      | some e1 =>
        cases hbe : b.external_id with
        | none => simp [conflicts, hms, hbs, hme, hbe] at h
        | some e2 =>
          simp only [conflicts, hms, hbs, hme, hbe, Bool.and_eq_true,
            beq_iff_eq] at h
          rw [h.1, h.2]
          exact ⟨rfl, rfl⟩

/-- C4: a second create request for the same (user, MediaRecord) pair
returns the existing entry with the already-waiting message and leaves the
store unchanged; when the record already exists no movie row is inserted;
and concretely two users waiting on the same record are both counted while
the record stays unduplicated. -/
theorem wait_entry_idempotent :
    (∀ (db : DB) (u q : String) (md : MovieData) (today : Day)
        (m : MovieRow) (ud : UserDDayRow),
      (get_movie_by_source_and_id db md.source md.external_id = some m →
        get_user_dday db u m.movie_id = some ud →
        upsert_dday db u q md today
          = (db, dday_to_response db m ud today (some already_waiting_message)))
      ∧ (get_movie_by_source_and_id db md.source md.external_id = some m →
          ((upsert_dday db u q md today).1).movies = db.movies))
    ∧ ((upsert_dday emptyDB "alice" "q" demo_movie_data 0).2.waiting_count = 1
      ∧ (upsert_dday (upsert_dday emptyDB "alice" "q" demo_movie_data 0).1
          "bob" "q" demo_movie_data 0).2.waiting_count = 2
      ∧ ((upsert_dday (upsert_dday emptyDB "alice" "q" demo_movie_data 0).1
          "bob" "q" demo_movie_data 0).1).movies.length = 1
      ∧ (upsert_dday (upsert_dday emptyDB "alice" "q" demo_movie_data 0).1
          "alice" "q" demo_movie_data 0).1
          = (upsert_dday emptyDB "alice" "q" demo_movie_data 0).1
      ∧ (upsert_dday (upsert_dday emptyDB "alice" "q" demo_movie_data 0).1
          "alice" "q" demo_movie_data 0).2.message
          = some already_waiting_message) := by
  constructor
  · intro db u q md today m ud
    constructor
    · intro hm hd
      simp [upsert_dday, hm, hd]
    · intro hm
      cases hd : get_user_dday db u m.movie_id with
      | some ex => simp [upsert_dday, hm, hd]
      | none => simp [upsert_dday, hm, hd, create_user_dday]
  · exact ⟨rfl, rfl, rfl, rfl, rfl⟩

/-- Closed instance of the idempotence claim: re-registering alice on the
already-stored demo movie returns the stored entry with the
already-waiting message and does not change the store. -/
theorem wait_entry_idempotent_witness :
    upsert_dday demoDB "alice" "q" demo_movie_data 0
      = (demoDB, dday_to_response demoDB demo_movie_row demo_wait_row 0
          (some already_waiting_message)) :=
  ((wait_entry_idempotent.1 demoDB "alice" "q" demo_movie_data 0
      demo_movie_row demo_wait_row).1) (by rfl) (by rfl)

/-- C6: when the raw insert hits the (source, external_id) uniqueness
constraint, `create_movie` re-fetches and returns the existing row with the
store unchanged instead of propagating the violation; a clean insert
returns the inserted row. -/
theorem unique_violation_recovery :
    ∀ (db : DB) (md : MovieData),
      (insert_movie_raw db (movie_row_of_data db.next_movie_id md) = .error () →
        ∃ m, get_movie_by_source_and_id db md.source md.external_id = some m
          ∧ create_movie db md = (db, m))
      ∧ (∀ db2,
          insert_movie_raw db (movie_row_of_data db.next_movie_id md) = .ok db2 →
          create_movie db md = (db2, movie_row_of_data db.next_movie_id md)) := by
  intro db md
  constructor
  · intro herr
    have hany : db.movies.any
        (fun m => conflicts m (movie_row_of_data db.next_movie_id md)) = true := by
      unfold insert_movie_raw at herr
      split at herr
      case isTrue h => exact h
      case isFalse h => cases herr
    obtain ⟨m, hmem, hconf⟩ := List.any_eq_true.mp hany
    have hcc := conflicts_eq_true hconf
    have h1 : m.source = md.source := hcc.1
    have h2 : m.external_id = md.external_id := hcc.2
    have hpm : (m.source == md.source && m.external_id == md.external_id) = true := by
      rw [h1, h2]
      simp
    have hsome : (db.movies.find? fun m2 =>
        m2.source == md.source && m2.external_id == md.external_id).isSome := by
      rw [List.find?_isSome]
      exact ⟨m, hmem, hpm⟩
    obtain ⟨m2, hm2⟩ := Option.isSome_iff_exists.mp hsome
    refine ⟨m2, hm2, ?_⟩
    simp only [create_movie, herr]
    show (match get_movie_by_source_and_id db md.source md.external_id with
      | some m => (db, m)
      | none => (db, movie_row_of_data db.next_movie_id md)) = (db, m2)
    rw [show get_movie_by_source_and_id db md.source md.external_id = some m2 from hm2]
  · intro db2 hok
    simp only [create_movie, hok]

/-- Closed instance of the race-recovery claim: inserting the demo movie
into a store that already holds it conflicts, and `create_movie` returns
the stored row without error. -/
theorem unique_violation_recovery_witness :
    ∃ m, get_movie_by_source_and_id demoDB2 demo_movie_data.source
          demo_movie_data.external_id = some m
      ∧ create_movie demoDB2 demo_movie_data = (demoDB2, m) :=
  (unique_violation_recovery demoDB2 demo_movie_data).1 (by rfl)

/-- C5 (code behaviour): an empty trimmed query is 422, `TMDbNotFound` 404,
`TMDbNoUpcomingRelease` 400 and `TMDbError` (missing credential, non-2xx
catalog response) 502, but a transport-level failure (catalog unreachable)
is not converted to `TMDbError` by `_request` and escapes the route handler
instead of yielding 502. -/
theorem error_status_mapping :
    upsert_endpoint emptyDB "alice" "   " (.error .tmdbNotFound) 0
        = .httpError 422 "query must not be empty"
    ∧ upsert_endpoint emptyDB "alice" "query" (.error .tmdbNotFound) 0
        = .httpError 404 not_found_detail
    ∧ upsert_endpoint emptyDB "alice" "query" (.error .tmdbNoUpcoming) 0
        = .httpError 400 no_upcoming_detail
    ∧ upsert_endpoint emptyDB "alice" "query" (.error .tmdbError) 0
        = .httpError 502 upstream_detail
    ∧ tmdb_request "" HttpResult.ok = .error .tmdbError
    ∧ tmdb_request "key" (.badStatus 500) = .error .tmdbError
    ∧ tmdb_request "key" .transportFailure = .error .otherExc
    ∧ upsert_endpoint emptyDB "alice" "query" (.error .otherExc) 0
        = .unhandled .otherExc
    ∧ (∀ d, upsert_endpoint emptyDB "alice" "query" (.error .otherExc) 0
        ≠ .httpError 502 d) := by
  refine ⟨rfl, rfl, rfl, rfl, rfl, rfl, rfl, rfl, ?_⟩
  intro d h
  cases h

/-- C7: every stream execution starts with the start event and ends with
the end sentinel; an exception inside the loop is converted into exactly
one assistant-message or error event placed right before the sentinel;
events are emitted in order as one list. -/
theorem stream_end_sentinel :
    ∀ (db : DB) (user_id : String) (run : OrchRun),
      (event_stream db user_id run).head? = some (SSE.start start_message)
      ∧ (event_stream db user_id run).getLast? = some SSE.end_sentinel
      ∧ (∀ e, run.failure = some e →
          ∃ pre, event_stream db user_id run
            = pre ++ [convert_exc e, SSE.end_sentinel])
      ∧ (∀ e, (∃ s, convert_exc e = SSE.assistant_message s)
          ∨ (∃ s, convert_exc e = SSE.error_event s)) := by
  intro db user_id run
  refine ⟨rfl, ?_, ?_, ?_⟩
  · unfold event_stream
    rw [← List.cons_append, List.getLast?_concat]
  · intro e he
    unfold event_stream
    rw [he]
    refine ⟨SSE.start start_message :: (process_events db user_id run.events).1, ?_⟩
    simp [List.append_assoc]
  · intro e
    cases e with
    | notFound => exact Or.inl ⟨_, rfl⟩
    | noUpcoming => exact Or.inl ⟨_, rfl⟩
    | tmdbError => exact Or.inr ⟨_, rfl⟩
    | otherExc m => exact Or.inr ⟨_, rfl⟩

/-- Closed instance of the stream-sentinel claim: a run interrupted by a
`TMDbError` still ends in the converted error event and the sentinel. -/
theorem stream_end_sentinel_witness :
    ∃ pre, event_stream emptyDB "alice"
        ⟨[OrchEvent.analysis none], some StreamExc.tmdbError⟩
      = pre ++ [convert_exc StreamExc.tmdbError, SSE.end_sentinel] :=
  ((stream_end_sentinel emptyDB "alice"
      ⟨[OrchEvent.analysis none], some StreamExc.tmdbError⟩).2.2.1)
    StreamExc.tmdbError rfl

end LifeStyle
